import Mathlib

/- Verification of the Chia farmer core: the proof-of-space primitives of
chia/types/blockchain_format/proof_of_space.py and the pool / signage-point
bookkeeping of chia/farmer/farmer.py, shallowly embedded over lists of bytes
(each byte a `Nat` below 256). -/

/-! ## Bytes -/

/-- Big-endian unsigned value of a byte list, as in int.from_bytes(b, "big"). -/
def bytesBE (l : List Nat) : Nat := l.foldl (fun acc b => acc * 256 + b) 0

/-! ## SHA-256, the canonical 32-byte hash std_hash of chia.util.hash -/

namespace Sha256

def w32 : Nat := 4294967296

/-- Right rotation of a 32-bit word. -/
def rotr (n x : Nat) : Nat := ((x >>> n) ||| (x <<< (32 - n))) % w32

def smallSigma0 (x : Nat) : Nat := rotr 7 x ^^^ rotr 18 x ^^^ (x >>> 3)

def smallSigma1 (x : Nat) : Nat := rotr 17 x ^^^ rotr 19 x ^^^ (x >>> 10)

/-- The 64 SHA-256 round constants. -/
def K : List Nat :=
  [1116352408, 1899447441, 3049323471, 3921009573, 961987163, 1508970993,
   2453635748, 2870763221, 3624381080, 310598401, 607225278, 1426881987,
   1925078388, 2162078206, 2614888103, 3248222580, 3835390401, 4022224774,
   264347078, 604807628, 770255983, 1249150122, 1555081692, 1996064986,
   2554220882, 2821834349, 2952996808, 3210313671, 3336571891, 3584528711,
   113926993, 338241895, 666307205, 773529912, 1294757372, 1396182291,
   1695183700, 1986661051, 2177026350, 2456956037, 2730485921, 2820302411,
   3259730800, 3345764771, 3516065817, 3600352804, 4094571909, 275423344,
   430227734, 506948616, 659060556, 883997877, 958139571, 1322822218,
   1537002063, 1747873779, 1955562222, 2024104815, 2227730452, 2361852424,
   2428436474, 2756734187, 3204031479, 3329325298]

/-- Eight 32-bit words: the hash state, and the working variables of a round. -/
structure Words8 where
  a : Nat
  b : Nat
  c : Nat
  d : Nat
  e : Nat
  f : Nat
  g : Nat
  h : Nat

def initH : Words8 :=
  ⟨1779033703, 3144134277, 1013904242, 2773480762,
   1359893119, 2600822924, 528734635, 1541459225⟩

/-- Pack bytes into big-endian 32-bit words, four at a time. -/
def toWords : List Nat → List Nat
  | a :: b :: c :: d :: rest => (((a * 256 + b) * 256 + c) * 256 + d) :: toWords rest
  | _ => []

/-- One step of the message-schedule extension: append word i from words
i-2, i-7, i-15, i-16. -/
def extendStep (w : List Nat) : List Nat :=
  let n := w.length
  let x2 := w.getD (n - 2) 0
  let x7 := w.getD (n - 7) 0
  let x15 := w.getD (n - 15) 0
  let x16 := w.getD (n - 16) 0
  w ++ [(smallSigma1 x2 + x7 + smallSigma0 x15 + x16) % w32]

/-- Extend the 16 block words to the 64 scheduled words. -/
def schedule (w : List Nat) : List Nat :=
  (List.range 48).foldl (fun acc _ => extendStep acc) w

/-- One compression round on the working variables, fed one (K, W) pair. -/
def round (st : Words8) (kw : Nat × Nat) : Words8 :=
  let s1 := rotr 6 st.e ^^^ rotr 11 st.e ^^^ rotr 25 st.e
  let ch := (st.e &&& st.f) ^^^ ((st.e ^^^ 4294967295) &&& st.g)
  let t1 := (st.h + s1 + ch + kw.1 + kw.2) % w32
  let s0 := rotr 2 st.a ^^^ rotr 13 st.a ^^^ rotr 22 st.a
  let maj := (st.a &&& st.b) ^^^ (st.a &&& st.c) ^^^ (st.b &&& st.c)
  let t2 := (s0 + maj) % w32
  ⟨(t1 + t2) % w32, st.a, st.b, st.c, (st.d + t1) % w32, st.e, st.f, st.g⟩

/-- Compress one 64-byte block into the hash state. -/
def processBlock (H : Words8) (block : List Nat) : Words8 :=
  let ws := schedule (toWords block)
  let st := (K.zip ws).foldl round H
  ⟨(H.a + st.a) % w32, (H.b + st.b) % w32, (H.c + st.c) % w32, (H.d + st.d) % w32,
   (H.e + st.e) % w32, (H.f + st.f) % w32, (H.g + st.g) % w32, (H.h + st.h) % w32⟩

/-- Big-endian 8-byte encoding of the bit length. -/
def lenBytes (L : Nat) : List Nat :=
  let b := 8 * L
  [(b >>> 56) % 256, (b >>> 48) % 256, (b >>> 40) % 256, (b >>> 32) % 256,
   (b >>> 24) % 256, (b >>> 16) % 256, (b >>> 8) % 256, b % 256]

/-- Append the 0x80 marker, the zero padding to 56 mod 64 bytes, and the
bit-length field. -/
def padMessage (msg : List Nat) : List Nat :=
  let L := msg.length
  msg ++ 128 :: (List.replicate ((119 - L % 64) % 64) 0 ++ lenBytes L)

/-- Split a list into 64-byte blocks; the fuel bounds the recursion by the
list length and is never exhausted when it starts at the length, since every
step consumes at least one element. -/
def toChunks64Go : Nat → List Nat → List (List Nat)
  | _, [] => []
  | 0, s => [s]
  | fuel + 1, x :: rest => (x :: rest).take 64 :: toChunks64Go fuel ((x :: rest).drop 64)

/-- Split the padded message into 64-byte blocks. -/
def toChunks64 (l : List Nat) : List (List Nat) := toChunks64Go l.length l

/-- Big-endian bytes of one 32-bit word. -/
def wordBytes (x : Nat) : List Nat :=
  [(x >>> 24) % 256, (x >>> 16) % 256, (x >>> 8) % 256, x % 256]

/-- The 32 digest bytes of a final hash state. -/
def digestBytes (H : Words8) : List Nat :=
  wordBytes H.a ++ wordBytes H.b ++ wordBytes H.c ++ wordBytes H.d ++
  wordBytes H.e ++ wordBytes H.f ++ wordBytes H.g ++ wordBytes H.h

end Sha256

/-- SHA-256 digest of a byte list: std_hash of chia.util.hash. -/
def std_hash (msg : List Nat) : List Nat :=
  Sha256.digestBytes ((Sha256.toChunks64 (Sha256.padMessage msg)).foldl Sha256.processBlock Sha256.initH)

/-! ## Bit-level view of a byte string, as the BitArray type exposes it -/

/-- MSB-first bits of one byte. -/
def byteToBits (b : Nat) : List Nat :=
  [b / 128 % 2, b / 64 % 2, b / 32 % 2, b / 16 % 2, b / 8 % 2, b / 4 % 2, b / 2 % 2, b % 2]

/-- MSB-first bit string of a byte list, as BitArray(bytes) lays it out. -/
def bytesToBits : List Nat → List Nat
  | [] => []
  | b :: rest => byteToBits b ++ bytesToBits rest

/-- Unsigned big-endian value of a bit list: the .uint of a BitArray slice. -/
def bitsToUint (bits : List Nat) : Nat := bits.foldl (fun acc b => 2 * acc + b) 0

/-! ## Consensus constants used by the farmer core -/

structure ConsensusConstants where
  MIN_PLOT_SIZE : Nat
  MAX_PLOT_SIZE : Nat
  NUMBER_ZERO_BITS_PLOT_FILTER_V1 : Nat
  NUMBER_ZERO_BITS_PLOT_FILTER_V2 : Nat
  PLOT_FILTER_32_HEIGHT : Nat
  PLOT_FILTER_64_HEIGHT : Nat
  PLOT_FILTER_128_HEIGHT : Nat
  HARD_FORK_HEIGHT : Nat
  SUB_SLOT_TIME_TARGET : Nat
  NUM_SPS_SUB_SLOT : Nat

/-! ## chia/types/blockchain_format/proof_of_space.py -/

/-- The plot filter input, H(plot_id + challenge_hash + signage_point). -/
def calculate_plot_filter_input (plot_id challenge_hash signage_point : List Nat) : List Nat :=
  std_hash (plot_id ++ challenge_hash ++ signage_point)

/-- The proof-of-space challenge: a second hash over the filter input. -/
def calculate_pos_challenge (plot_id challenge_hash signage_point : List Nat) : List Nat :=
  std_hash (calculate_plot_filter_input plot_id challenge_hash signage_point)

/-- Plot id when pooling by public key. -/
def calculate_plot_id_pk (pool_public_key plot_public_key : List Nat) : List Nat :=
  std_hash (pool_public_key ++ plot_public_key)

/-- Plot id when pooling by pool contract puzzle hash. -/
def calculate_plot_id_ph (pool_contract_puzzle_hash plot_public_key : List Nat) : List Nat :=
  std_hash (pool_contract_puzzle_hash ++ plot_public_key)

/-- The plot filter: a zero prefix always passes; otherwise the first
prefix_bits bits of the filter input, read as a BitArray slice's unsigned
value, must be zero (source lines 94-108). -/
def passes_plot_filter (prefix_bits : Nat) (plot_id challenge_hash signage_point : List Nat) : Bool :=
  if prefix_bits = 0 then true
  else
    bitsToUint ((bytesToBits
      (calculate_plot_filter_input plot_id challenge_hash signage_point)).take prefix_bits) == 0

/-- The height-dependent filter size (source lines 111-122): a Python int,
possibly driven negative before the final clamp, hence the Int result. -/
def calculate_prefix_bits (constants : ConsensusConstants) (height : Nat) : Int :=
  let pb : Int := constants.NUMBER_ZERO_BITS_PLOT_FILTER_V1
  let pb :=
    if constants.PLOT_FILTER_32_HEIGHT ≤ height then pb - 4
    else if constants.PLOT_FILTER_64_HEIGHT ≤ height then pb - 3
    else if constants.PLOT_FILTER_128_HEIGHT ≤ height then pb - 2
    else if constants.HARD_FORK_HEIGHT ≤ height then pb - 1
    else pb
  max 0 pb

/-- A proof of space, bytes fields as byte lists; key and hash fields keep the
source's Optional type. -/
structure ProofOfSpace where
  challenge : List Nat
  pool_public_key : Option (List Nat)
  pool_contract_puzzle_hash : Option (List Nat)
  plot_public_key : List Nat
  version_and_size : Nat
  proof : List Nat

/-- Modelled from the spec: the accessor size_v1 of chia_rs.ProofOfSpace is not
part of the repository; the spec says `version_and_size` "encodes plot format
v1 or v2 and k-size". We model a v1 proof as one whose high bit is clear, the
k-size being the value itself. -/
def ProofOfSpace.size_v1 (pos : ProofOfSpace) : Option Nat :=
  if pos.version_and_size < 128 then some pos.version_and_size else none

/-- Modelled from the spec: the accessor size_v2 of chia_rs.ProofOfSpace is not
part of the repository; a v2 proof has the high bit set, the k-size being the
low seven bits. -/
def ProofOfSpace.size_v2 (pos : ProofOfSpace) : Option Nat :=
  if pos.version_and_size < 128 then none else some (pos.version_and_size % 128)

/-- Plot id of a proof of space (source lines 17-22). -/
def get_plot_id (pos : ProofOfSpace) : List Nat :=
  match pos.pool_public_key with
  | none => calculate_plot_id_ph (pos.pool_contract_puzzle_hash.getD []) pos.plot_public_key
  | some pk => calculate_plot_id_pk pk pos.plot_public_key

/-- Quality-string retrieval (source lines 76-91). The v1 verifier (chiapos)
and the v2 verifier (validate_proof_v2, which the source leaves
unimplemented) are external components, taken as arguments; an empty byte
string signals failure, as in the source's falsiness test. -/
def get_quality_string (validate_v1 validate_v2 : List Nat → Nat → List Nat → List Nat → List Nat)
    (pos : ProofOfSpace) (plot_id : List Nat) : Option (List Nat) :=
  match pos.size_v1 with
  | some s1 =>
    let q := validate_v1 plot_id s1 pos.challenge pos.proof
    if q = [] then none else some q
  | none =>
    match pos.size_v2 with
    | some s2 =>
      let q := validate_v2 plot_id s2 pos.challenge pos.proof
      if q = [] then none else some q
    | none => none

/-- Size validation of source lines 44-61, factored as a function: the filter
size to apply when the k-size is valid for the plot version, a failure
otherwise. -/
def prefixBitsFromSize (constants : ConsensusConstants) (pos : ProofOfSpace) (height : Nat) :
    Option Nat :=
  match pos.size_v1 with
  | some s1 =>
    if s1 < constants.MIN_PLOT_SIZE then none
    else if constants.MAX_PLOT_SIZE < s1 then none
    else some (calculate_prefix_bits constants height).toNat
  | none =>
    match pos.size_v2 with
    | some s2 =>
      if s2 = 28 ∨ s2 = 30 ∨ s2 = 32 then some constants.NUMBER_ZERO_BITS_PLOT_FILTER_V2
      else none
    | none => none

/-- Full verification (source lines 29-73): pool-identity exclusivity, k-size
per plot version, challenge recomputation, plot filter, then the
format-specific verifier. -/
def verify_and_get_quality_string
    (validate_v1 validate_v2 : List Nat → Nat → List Nat → List Nat → List Nat)
    (pos : ProofOfSpace) (constants : ConsensusConstants)
    (original_challenge_hash signage_point : List Nat) (height : Nat) :
    Option (List Nat) :=
  if pos.pool_public_key = none ∧ pos.pool_contract_puzzle_hash = none then none
  else if pos.pool_public_key ≠ none ∧ pos.pool_contract_puzzle_hash ≠ none then none
  else
    match prefixBitsFromSize constants pos height with
    | none => none
    | some pb =>
      if calculate_pos_challenge (get_plot_id pos) original_challenge_hash signage_point
          ≠ pos.challenge then none
      else if ¬ passes_plot_filter pb (get_plot_id pos) original_challenge_hash signage_point
        then none
      else get_quality_string validate_v1 validate_v2 pos (get_plot_id pos)

/-- Exactly one pool identity is present: the spec-side invariant for an
accepted proof of space. -/
def exactlyOnePoolId (pos : ProofOfSpace) : Prop :=
  (pos.pool_public_key ≠ none ∧ pos.pool_contract_puzzle_hash = none) ∨
  (pos.pool_public_key = none ∧ pos.pool_contract_puzzle_hash ≠ none)

/-- Spec-side validity of the k-size for the proof's plot version: a v1 k in
[MIN_PLOT_SIZE, MAX_PLOT_SIZE], a v2 k in the set of 28, 30 and 32. -/
def validKSize (constants : ConsensusConstants) (pos : ProofOfSpace) : Prop :=
  match pos.size_v1 with
  | some s1 => constants.MIN_PLOT_SIZE ≤ s1 ∧ s1 ≤ constants.MAX_PLOT_SIZE
  | none =>
    match pos.size_v2 with
    | some s2 => s2 = 28 ∨ s2 = 30 ∨ s2 = 32
    | none => False

/-- The filter size the verification applies: the height-dependent value for a
v1 plot, the fixed v2 constant for a v2 plot. -/
def applicablePrefixBits (constants : ConsensusConstants) (pos : ProofOfSpace) (height : Nat) : Nat :=
  match pos.size_v1 with
  | some _ => (calculate_prefix_bits constants height).toNat
  | none => constants.NUMBER_ZERO_BITS_PLOT_FILTER_V2

/-! ## Fee quality, farmer.py lines 915-920 -/

/-- The CHIP-22 fee quality: the last four bytes of std_hash(proof +
challenge) as a big-endian unsigned 32-bit integer. -/
def calculate_harvester_fee_quality (proof challenge : List Nat) : Nat :=
  bytesBE ((std_hash (proof ++ challenge)).drop (32 - 4))

/-! ## Concrete inputs used by witnesses -/

/-- Concrete consensus constants for witnesses: v1 filter of 9 bits, plot
sizes 18..50, staggered filter reduction heights, a 640-second sub slot with
64 signage points. -/
def cW : ConsensusConstants := ⟨18, 50, 9, 9, 32000, 24000, 16000, 8000, 640, 64⟩

/-- A proof of space carrying no pool identity at all. -/
def posBothNone : ProofOfSpace :=
  ⟨List.replicate 32 0, none, none, List.replicate 48 0, 32, []⟩

/-! ## chia/farmer/farmer.py: rolling 24h counters -/

/-- Drop the leading run of entries older than the cutoff (lines 76-83): scan
for the first timestamp at or past `before`; return the whole list when it is
first, the suffix from it on otherwise, and the empty list when no entry
qualifies. Timestamps are seconds; the cutoff may be negative, hence Int. -/
def strip_old_entries {α : Type} (pairs : List (Nat × α)) (before : Int) : List (Nat × α) :=
  match pairs with
  | [] => []
  | (timestamp, points) :: rest =>
    if before ≤ (timestamp : Int) then (timestamp, points) :: rest
    else strip_old_entries rest before

/-- The slice of one pool's mutable state that increment_pool_stats touches
for one counter name: the `<name>_since_start` total, the `<name>_24h`
rolling list, and the current_difficulty consulted when no value is supplied.
This models a pool-state dictionary holding the counter's two keys - the
shape update_pool_state initialises at lines 541-565; `α` is the payload type
of the 24h entries. -/
structure PoolCounterState (α : Type) where
  since_start : Int
  list24h : List (Nat × α)
  current_difficulty : α

/-- Record one event (lines 86-110): bump the running total by `count`,
append the (timestamp, value) pair - the current difficulty when no value is
supplied - and age out entries older than 24 hours. The uint32 timestamp
conversion is reduction modulo 2^32. -/
def increment_pool_stats {α : Type} (st : PoolCounterState α) (current_time : Nat)
    (count : Int) (value : Option α) : PoolCounterState α :=
  let appended := st.list24h ++ [(current_time % 4294967296, value.getD st.current_difficulty)]
  { st with
    since_start := st.since_start + count
    list24h := strip_old_entries appended ((current_time : Int) - 86400) }

/-! ## chia/farmer/farmer.py: missing signage points -/

/-- A new signage point message: the fields check_missing_signage_points
reads. -/
structure NewSignagePoint where
  challenge_hash : List Nat
  signage_point_index : Nat

/-- Lines 786-812: report missing or skipped signage points, threading the
remembered prev_signage_point pair explicitly. Returns the new
prev_signage_point and the optional (timestamp, count) report. The source's
float arithmetic is modelled with exact rationals; the 1.6 allowance is 8/5. -/
def check_missing_signage_points (constants : ConsensusConstants)
    (prev : Option (Nat × NewSignagePoint)) (timestamp : Nat) (nsp : NewSignagePoint) :
    Option (Nat × NewSignagePoint) × Option (Nat × Nat) :=
  match prev with
  | none => (some (timestamp, nsp), none)
  | some (prev_time, prev_sp) =>
    if prev_sp.challenge_hash = nsp.challenge_hash then
      let missing_sps : Int := (nsp.signage_point_index : Int) - prev_sp.signage_point_index - 1
      if 0 < missing_sps then (some (timestamp, nsp), some (timestamp, missing_sps.toNat))
      else (some (timestamp, nsp), none)
    else
      let actual_sp_interval_seconds : Int := (timestamp : Int) - prev_time
      if actual_sp_interval_seconds ≤ 0 then (some (timestamp, nsp), none)
      else
        let expected_sp_interval_seconds : ℚ :=
          (constants.SUB_SLOT_TIME_TARGET : ℚ) / constants.NUM_SPS_SUB_SLOT
        if (actual_sp_interval_seconds : ℚ) < expected_sp_interval_seconds * (8 / 5) then
          (some (timestamp, nsp), none)
        else
          (some (timestamp, nsp),
            some (timestamp,
              (⌊(actual_sp_interval_seconds : ℚ) / expected_sp_interval_seconds⌋).toNat))

/-! ## chia/farmer/farmer.py: per-pool negotiated state -/

/-- The negotiated per-pool fields that GET /pool_info and GET /farmer
write. -/
structure PoolNegotiatedState where
  current_difficulty : Option Nat
  current_points : Nat
  authentication_token_timeout : Option Nat
deriving DecidableEq

/-- The negotiated fields of a freshly added pool (lines 541-565). -/
def initial_pool_state : PoolNegotiatedState := ⟨none, 0, none⟩

/-- A parsed GET /pool_info body: whether it carried an error_code key, and
the fields update_pool_state reads on success. -/
structure PoolInfoResponse where
  has_error_code : Bool
  authentication_token_timeout : Nat
  minimum_difficulty : Nat

/-- A parsed GET /farmer body: whether an error_code key is present, and the
difficulty and points of a successful response. -/
structure FarmerResponse where
  has_error_code : Bool
  current_difficulty : Nat
  current_points : Nat

/-- One network interaction of the per-pool update loop; `none` inside an
event is a failed request. -/
inductive PoolEvent where
  | poolInfo (result : Option PoolInfoResponse)
  | getFarmer (response : Option FarmerResponse)

/-- How one event updates the negotiated state. GET /pool_info (lines
586-591) always copies authentication_token_timeout and seeds
current_difficulty from minimum_difficulty only while it is still null; GET
/farmer (lines 609-614) overwrites current_difficulty and current_points.
Failed requests and error bodies leave the negotiated fields alone. -/
def pool_state_step (st : PoolNegotiatedState) (e : PoolEvent) : PoolNegotiatedState :=
  match e with
  | .poolInfo none => st
  | .poolInfo (some body) =>
    if body.has_error_code then st
    else
      { st with
        authentication_token_timeout := some body.authentication_token_timeout
        current_difficulty :=
          if st.current_difficulty = none then some body.minimum_difficulty
          else st.current_difficulty }
  | .getFarmer none => st
  | .getFarmer (some r) =>
    if r.has_error_code then st
    else { st with current_difficulty := some r.current_difficulty,
                   current_points := r.current_points }

/-- An event the source treats as a success: a response body carrying no
error_code. -/
def PoolEvent.isSuccess : PoolEvent → Bool
  | .poolInfo (some body) => !body.has_error_code
  | .getFarmer (some r) => !r.has_error_code
  | _ => false

/-! ## chia/farmer/farmer.py: pool_info redirect handling -/

/-- The path suffix appended to the pool URL for the pool_info request. -/
def pool_info_tail : List Char := "/pool_info".toList

/-- Whether `pat` is a prefix of the character list. -/
def startsWithL : List Char → List Char → Bool
  | _, [] => true
  | [], _ :: _ => false
  | a :: as, b :: bs => a == b && startsWithL as bs

/-- Python's str.replace, scanning left to right for non-overlapping
occurrences; the fuel bounds the recursion by the string length and is never
exhausted when it starts at the length and the pattern is nonempty, since
every step consumes at least one character. -/
def replaceAllGo (pat rep : List Char) : Nat → List Char → List Char
  | _, [] => []
  | 0, s => s
  | fuel + 1, c :: rest =>
    if startsWithL (c :: rest) pat then
      rep ++ replaceAllGo pat rep fuel ((c :: rest).drop pat.length)
    else c :: replaceAllGo pat rep fuel rest

/-- Python's str.replace for a nonempty pattern: replace every
non-overlapping occurrence, left to right. -/
def replaceAll (pat rep s : List Char) : List Char :=
  if pat = [] then s else replaceAllGo pat rep s.length s

/-- The redirect handling of _pool_get_pool_info (lines 346-363): the
requested URL is pool_url + "/pool_info"; a new canonical pool URL is
produced when the final response URL differs from it, the redirect history is
nonempty, and every hop is a 301 or 308; the new URL deletes "/pool_info"
from the response URL the way str.replace does. A produced URL is exactly
what update_pool_state persists via update_pool_url at lines 595-596. -/
def compute_new_pool_url (pool_url response_url : List Char) (history : List Nat) :
    Option (List Char) :=
  let url := pool_url ++ pool_info_tail
  if response_url ≠ url ∧ 0 < history.length ∧ (history.all fun s => s == 301 || s == 308) then
    some (replaceAll pool_info_tail [] response_url)
  else none

/-! ## chia/farmer/farmer.py: update_pool_state guards -/

/-- What one update_pool_state iteration does to one pool past the
authentication-key lookup: the negotiated state afterwards, whether any pool
HTTP request is attempted, and how many pool_errors entries the iteration
records. -/
structure PoolIterResult where
  state : PoolNegotiatedState
  attempted_requests : Bool
  pool_error_increments : Nat
deriving DecidableEq

/-- The guards heading one update_pool_state iteration (lines 570-599):
self-pooling (empty URL, line 573) skips the pool silently; the mainnet HTTPS
guard (lines 576-579) logs an error and skips the pool, recording nothing;
otherwise the iteration proceeds, applies its network events to the
negotiated state, and records one pool_errors entry per failed request
(handle_failed_pool_response, lines 322-330) or error-body GET /farmer
response (lines 402-410). `events` stands for the requests the iteration's
schedule lets it attempt. -/
def update_pool_state_iter (selected_network pool_url : List Char)
    (st : PoolNegotiatedState) (events : List PoolEvent) : PoolIterResult :=
  if pool_url = [] then ⟨st, false, 0⟩
  else if selected_network = "mainnet".toList ∧ ¬ startsWithL pool_url "https://".toList then
    ⟨st, false, 0⟩
  else
    ⟨events.foldl pool_state_step st, true,
      (events.filter fun e =>
        match e with
        | .poolInfo none => true
        | .getFarmer none => true
        | .getFarmer (some r) => r.has_error_code
        | _ => false).length⟩

/-! # Theorems -/

/-! ## Basic facts about the hash and byte views -/

theorem std_hash_length (msg : List Nat) : (std_hash msg).length = 32 := by
  simp [std_hash, Sha256.digestBytes, Sha256.wordBytes]

theorem mem_wordBytes_lt (x : Nat) : ∀ b ∈ Sha256.wordBytes x, b < 256 := by
  intro b hb
  simp only [Sha256.wordBytes, List.mem_cons, List.not_mem_nil, or_false] at hb
  rcases hb with h1 | h1 | h1 | h1 <;> (subst h1; exact Nat.mod_lt _ (by norm_num))

theorem std_hash_lt (msg : List Nat) : ∀ b ∈ std_hash msg, b < 256 := by
  intro b hb
  simp only [std_hash, Sha256.digestBytes, List.mem_append] at hb
  rcases hb with ((((((h1 | h1) | h1) | h1) | h1) | h1) | h1) | h1 <;>
    exact mem_wordBytes_lt _ _ h1

theorem bitsToUint_foldl (l : List Nat) :
    ∀ a : Nat, List.foldl (fun acc b => 2 * acc + b) a l = a * 2 ^ l.length + bitsToUint l := by
  induction l with
  | nil => intro a; simp [bitsToUint]
  | cons b t ih =>
    intro a
    simp only [List.foldl_cons, List.length_cons, bitsToUint]
    rw [ih (2 * a + b), ih (2 * 0 + b), pow_succ]
    ring

theorem bitsToUint_cons (b : Nat) (t : List Nat) :
    bitsToUint (b :: t) = b * 2 ^ t.length + bitsToUint t := by
  show List.foldl (fun acc x => 2 * acc + x) (2 * 0 + b) t = _
  rw [bitsToUint_foldl t (2 * 0 + b)]
  ring

theorem bitsToUint_append (u v : List Nat) :
    bitsToUint (u ++ v) = bitsToUint u * 2 ^ v.length + bitsToUint v := by
  induction u with
  | nil => simp [bitsToUint]
  | cons b t ih =>
    rw [List.cons_append, bitsToUint_cons, bitsToUint_cons, ih, List.length_append, pow_add]
    ring

theorem bitsToUint_lt (l : List Nat) (hl : ∀ b ∈ l, b < 2) : bitsToUint l < 2 ^ l.length := by
  induction l with
  | nil => simp [bitsToUint]
  | cons b t ih =>
    rw [bitsToUint_cons]
    have hb : b < 2 := hl b (by simp)
    have ht : bitsToUint t < 2 ^ t.length := ih fun x hx => hl x (by simp [hx])
    have h1 : b * 2 ^ t.length ≤ 1 * 2 ^ t.length := Nat.mul_le_mul_right _ (by omega)
    simp only [List.length_cons, pow_succ, one_mul] at h1 ⊢
    omega

theorem bitsToUint_take (l : List Nat) (k : Nat) (hl : ∀ b ∈ l, b < 2) :
    bitsToUint (l.take k) = bitsToUint l / 2 ^ (l.length - k) := by
  conv_rhs => rw [← List.take_append_drop k l]
  rw [bitsToUint_append]
  have hd : bitsToUint (l.drop k) < 2 ^ (l.drop k).length :=
    bitsToUint_lt _ fun b hb => hl b (List.drop_subset k l hb)
  rw [List.length_append, List.length_take, List.length_drop]
  rw [show min k l.length + (l.length - k) - k = l.length - k by omega]
  rw [Nat.mul_comm, Nat.mul_add_div (Nat.pos_pow_of_pos _ (by norm_num))]
  rw [List.length_drop] at hd
  rw [Nat.div_eq_of_lt hd]
  omega

theorem byteToBits_lt (b : Nat) : ∀ x ∈ byteToBits b, x < 2 := by
  intro x hx
  simp only [byteToBits, List.mem_cons, List.not_mem_nil, or_false] at hx
  rcases hx with h | h | h | h | h | h | h | h <;> (subst h; exact Nat.mod_lt _ (by norm_num))

theorem bitsToUint_byteToBits (b : Nat) (hb : b < 256) : bitsToUint (byteToBits b) = b := by
  simp only [byteToBits, bitsToUint, List.foldl_cons, List.foldl_nil]
  omega

theorem bytesToBits_lt (l : List Nat) : ∀ x ∈ bytesToBits l, x < 2 := by
  induction l with
  | nil => simp [bytesToBits]
  | cons b t ih =>
    intro x hx
    rw [bytesToBits] at hx
    rcases List.mem_append.mp hx with h | h
    · exact byteToBits_lt b x h
    · exact ih x h

theorem bytesToBits_length (l : List Nat) : (bytesToBits l).length = 8 * l.length := by
  induction l with
  | nil => simp [bytesToBits]
  | cons b t ih =>
    simp only [bytesToBits, List.length_append, List.length_cons, byteToBits, ih,
      List.length_nil]
    ring

theorem bytesBE_foldl (l : List Nat) :
    ∀ a : Nat, List.foldl (fun acc b => acc * 256 + b) a l = a * 256 ^ l.length + bytesBE l := by
  induction l with
  | nil => intro a; simp [bytesBE]
  | cons b t ih =>
    intro a
    simp only [List.foldl_cons, List.length_cons, bytesBE]
    rw [ih (a * 256 + b), ih (0 * 256 + b), pow_succ]
    ring

theorem bytesBE_cons (b : Nat) (t : List Nat) :
    bytesBE (b :: t) = b * 256 ^ t.length + bytesBE t := by
  show List.foldl (fun acc x => acc * 256 + x) (0 * 256 + b) t = _
  rw [bytesBE_foldl t (0 * 256 + b)]
  ring

theorem bytesBE_lt (l : List Nat) (hl : ∀ b ∈ l, b < 256) : bytesBE l < 256 ^ l.length := by
  induction l with
  | nil => simp [bytesBE]
  | cons b t ih =>
    rw [bytesBE_cons]
    have hb : b < 256 := hl b (by simp)
    have ht : bytesBE t < 256 ^ t.length := ih fun x hx => hl x (by simp [hx])
    have h1 : b * 256 ^ t.length ≤ 255 * 256 ^ t.length := Nat.mul_le_mul_right _ (by omega)
    simp only [List.length_cons, pow_succ] at h1 ⊢
    omega

theorem bitsToUint_bytesToBits (l : List Nat) (hl : ∀ b ∈ l, b < 256) :
    bitsToUint (bytesToBits l) = bytesBE l := by
  induction l with
  | nil => simp [bytesToBits, bitsToUint, bytesBE]
  | cons b t ih =>
    rw [bytesToBits, bitsToUint_append, bitsToUint_byteToBits b (hl b (by simp)),
      ih (fun x hx => hl x (by simp [hx])), bytesToBits_length, bytesBE_cons, pow_mul]
    norm_num

/-! ## C2: the height-dependent filter size -/

/-- C2: calculate_prefix_bits equals NUMBER_ZERO_BITS_PLOT_FILTER_V1 minus 4
when the height is at or past PLOT_FILTER_32_HEIGHT, else minus 3 at or past
PLOT_FILTER_64_HEIGHT, else minus 2 at or past PLOT_FILTER_128_HEIGHT, else
minus 1 at or past HARD_FORK_HEIGHT, else unreduced, clamped below at zero.
The alternatives are else-if, so only the highest applicable threshold
applies, and, the comparisons being non-strict, each reduction takes effect
exactly at its transition height. -/
theorem calculate_prefix_bits_piecewise (c : ConsensusConstants) (height : Nat) :
    calculate_prefix_bits c height =
      max 0 ((c.NUMBER_ZERO_BITS_PLOT_FILTER_V1 : Int) -
        (if c.PLOT_FILTER_32_HEIGHT ≤ height then 4
         else if c.PLOT_FILTER_64_HEIGHT ≤ height then 3
         else if c.PLOT_FILTER_128_HEIGHT ≤ height then 2
         else if c.HARD_FORK_HEIGHT ≤ height then 1
         else 0)) := by
  unfold calculate_prefix_bits
  split_ifs <;> simp

/-- Witness: at the concrete constants cW and exactly the 128-reduction
transition height, two bits are subtracted. -/
theorem calculate_prefix_bits_piecewise_witness : calculate_prefix_bits cW 16000 = 7 := by
  rw [calculate_prefix_bits_piecewise cW 16000]
  decide

/-! ## C9: the plot filter -/

/-- C9: passes_plot_filter always passes at prefix_bits zero, and for
positive prefix_bits it passes exactly when the high-order prefix_bits bits
of the 256-bit plot filter input - its big-endian value shifted down by
256 - prefix_bits bits - are zero. -/
theorem passes_plot_filter_spec (prefix_bits : Nat)
    (plot_id challenge_hash signage_point : List Nat) :
    (prefix_bits = 0 →
      passes_plot_filter prefix_bits plot_id challenge_hash signage_point = true) ∧
    (0 < prefix_bits →
      (passes_plot_filter prefix_bits plot_id challenge_hash signage_point = true ↔
        bytesBE (calculate_plot_filter_input plot_id challenge_hash signage_point) /
          2 ^ (256 - prefix_bits) = 0)) := by
  constructor
  · intro h0
    simp [passes_plot_filter, h0]
  · intro hpos
    have hne : ¬ prefix_bits = 0 := by omega
    have hlen : (calculate_plot_filter_input plot_id challenge_hash signage_point).length = 32 :=
      std_hash_length _
    have hbytes : ∀ b ∈ calculate_plot_filter_input plot_id challenge_hash signage_point,
        b < 256 := std_hash_lt _
    rw [passes_plot_filter, if_neg hne, beq_iff_eq,
      bitsToUint_take _ _ (bytesToBits_lt _), bitsToUint_bytesToBits _ hbytes,
      bytesToBits_length, hlen]

/-- Witness: the C9 characterisation instantiated at one filter bit and
all-zero 32-byte inputs. -/
theorem passes_plot_filter_spec_witness :
    0 < 1 ∧
      (passes_plot_filter 1 (List.replicate 32 0) (List.replicate 32 0)
          (List.replicate 32 0) = true ↔
        bytesBE (calculate_plot_filter_input (List.replicate 32 0) (List.replicate 32 0)
            (List.replicate 32 0)) / 2 ^ (256 - 1) = 0) :=
  ⟨by decide, (passes_plot_filter_spec 1 _ _ _).2 (by decide)⟩

/-! ## C8: the CHIP-22 fee quality -/

/-- C8: the fee quality is the last four bytes of the digest of
proof + challenge read as a big-endian unsigned integer - in particular a
32-bit value - and at the all-zero 32-byte proof and challenge it is that of
the 64-byte zero message. -/
theorem calculate_harvester_fee_quality_spec (proof challenge : List Nat) :
    calculate_harvester_fee_quality proof challenge =
      bytesBE ((std_hash (proof ++ challenge)).drop
        ((std_hash (proof ++ challenge)).length - 4)) ∧
    calculate_harvester_fee_quality proof challenge < 2 ^ 32 ∧
    calculate_harvester_fee_quality (List.replicate 32 0) (List.replicate 32 0) =
      bytesBE ((std_hash (List.replicate 64 0)).drop 28) := by
  refine ⟨?_, ?_, ?_⟩
  · rw [calculate_harvester_fee_quality, std_hash_length]
  · rw [calculate_harvester_fee_quality]
    have hlen : ((std_hash (proof ++ challenge)).drop (32 - 4)).length = 4 := by
      rw [List.length_drop, std_hash_length]
    have hlt := bytesBE_lt ((std_hash (proof ++ challenge)).drop (32 - 4))
      fun b hb => std_hash_lt _ b (List.drop_subset _ _ hb)
    rw [hlen] at hlt
    calc bytesBE ((std_hash (proof ++ challenge)).drop (32 - 4)) < 256 ^ 4 := hlt
      _ = 2 ^ 32 := by norm_num
  · rw [calculate_harvester_fee_quality, ← List.replicate_add]

set_option maxRecDepth 100000 in
/-- Witness: at the all-zero proof and challenge the fee quality is the last
four zero-message digest bytes, concretely 660208459 = 0x2759fb4b. -/
theorem calculate_harvester_fee_quality_spec_witness :
    calculate_harvester_fee_quality (List.replicate 32 0) (List.replicate 32 0) =
      bytesBE ((std_hash (List.replicate 64 0)).drop 28) ∧
    calculate_harvester_fee_quality (List.replicate 32 0) (List.replicate 32 0) = 660208459 :=
  ⟨(calculate_harvester_fee_quality_spec [] []).2.2, by decide⟩

/-! ## C1: verify_and_get_quality_string -/

theorem prefixBitsFromSize_some (c : ConsensusConstants) (pos : ProofOfSpace) (height pb : Nat)
    (hp : prefixBitsFromSize c pos height = some pb) :
    validKSize c pos ∧ pb = applicablePrefixBits c pos height := by
  rcases hs1 : pos.size_v1 with _ | s1
  · rcases hs2 : pos.size_v2 with _ | s2
    · simp [prefixBitsFromSize, hs1, hs2] at hp
    · simp only [prefixBitsFromSize, hs1, hs2] at hp
      by_cases hsz : s2 = 28 ∨ s2 = 30 ∨ s2 = 32
      · rw [if_pos hsz] at hp
        simp only [Option.some_inj] at hp
        simp only [validKSize, applicablePrefixBits, hs1, hs2]
        exact ⟨hsz, hp.symm⟩
      · rw [if_neg hsz] at hp
        exact absurd hp (by simp)
  · simp only [prefixBitsFromSize, hs1] at hp
    split_ifs at hp with hmin hmax
    simp only [Option.some_inj] at hp
    simp only [validKSize, applicablePrefixBits, hs1]
    exact ⟨⟨by omega, by omega⟩, hp.symm⟩

theorem verify_some_implies
    (validate_v1 validate_v2 : List Nat → Nat → List Nat → List Nat → List Nat)
    (pos : ProofOfSpace) (constants : ConsensusConstants)
    (och sp : List Nat) (height : Nat) (q : List Nat)
    (hq : verify_and_get_quality_string validate_v1 validate_v2 pos constants och sp height
      = some q) :
    exactlyOnePoolId pos ∧ validKSize constants pos ∧
      calculate_pos_challenge (get_plot_id pos) och sp = pos.challenge ∧
      passes_plot_filter (applicablePrefixBits constants pos height) (get_plot_id pos) och sp
        = true := by
  unfold verify_and_get_quality_string at hq
  by_cases h1 : pos.pool_public_key = none ∧ pos.pool_contract_puzzle_hash = none
  · rw [if_pos h1] at hq
    exact absurd hq (by simp)
  · rw [if_neg h1] at hq
    by_cases h2 : pos.pool_public_key ≠ none ∧ pos.pool_contract_puzzle_hash ≠ none
    · rw [if_pos h2] at hq
      exact absurd hq (by simp)
    · rw [if_neg h2] at hq
      have hone : exactlyOnePoolId pos := by
        unfold exactlyOnePoolId
        tauto
      rcases hp : prefixBitsFromSize constants pos height with _ | pb
      · rw [hp] at hq
        exact absurd hq (by simp)
      · rw [hp] at hq
        simp only [] at hq
        obtain ⟨hvk, hpb⟩ := prefixBitsFromSize_some constants pos height pb hp
        by_cases hc : calculate_pos_challenge (get_plot_id pos) och sp ≠ pos.challenge
        · rw [if_pos hc] at hq
          exact absurd hq (by simp)
        · rw [if_neg hc] at hq
          push_neg at hc
          by_cases hf : passes_plot_filter pb (get_plot_id pos) och sp = true
          · exact ⟨hone, hvk, hc, hpb ▸ hf⟩
          · rw [if_pos hf] at hq
            exact absurd hq (by simp)

/-- C1: whenever verify_and_get_quality_string returns a quality string,
exactly one pool identity is present, the recomputed challenge matches the
proof's own, and the plot filter passes at the applicable filter size; and
whenever the pool identities are not exactly one, the k-size is invalid for
the plot version, the recomputed challenge differs, or the filter fails, it
returns the failure signal none - for any plot-format verifiers. -/
theorem verify_and_get_quality_string_spec
    (validate_v1 validate_v2 : List Nat → Nat → List Nat → List Nat → List Nat)
    (pos : ProofOfSpace) (constants : ConsensusConstants)
    (original_challenge_hash signage_point : List Nat) (height : Nat) :
    (∀ q, verify_and_get_quality_string validate_v1 validate_v2 pos constants
        original_challenge_hash signage_point height = some q →
      exactlyOnePoolId pos ∧
      calculate_pos_challenge (get_plot_id pos) original_challenge_hash signage_point
        = pos.challenge ∧
      passes_plot_filter (applicablePrefixBits constants pos height) (get_plot_id pos)
        original_challenge_hash signage_point = true) ∧
    ((¬ exactlyOnePoolId pos ∨ ¬ validKSize constants pos ∨
      calculate_pos_challenge (get_plot_id pos) original_challenge_hash signage_point
        ≠ pos.challenge ∨
      passes_plot_filter (applicablePrefixBits constants pos height) (get_plot_id pos)
        original_challenge_hash signage_point = false) →
      verify_and_get_quality_string validate_v1 validate_v2 pos constants
        original_challenge_hash signage_point height = none) := by
  constructor
  · intro q hq
    obtain ⟨ha, _, hc, hd⟩ := verify_some_implies validate_v1 validate_v2 pos constants
      original_challenge_hash signage_point height q hq
    exact ⟨ha, hc, hd⟩
  · intro hviol
    rcases hv : verify_and_get_quality_string validate_v1 validate_v2 pos constants
      original_challenge_hash signage_point height with _ | q
    · rfl
    · obtain ⟨ha, hb, hc, hd⟩ := verify_some_implies validate_v1 validate_v2 pos constants
        original_challenge_hash signage_point height q hv
      rcases hviol with h | h | h | h
      · exact absurd ha h
      · exact absurd hb h
      · exact absurd hc h
      · rw [hd] at h
        exact absurd h (by simp)

/-- Witness: a proof of space with neither pool identity is rejected. -/
theorem verify_and_get_quality_string_spec_witness :
    verify_and_get_quality_string (fun _ _ _ _ => []) (fun _ _ _ _ => [])
      posBothNone cW [] [] 0 = none :=
  (verify_and_get_quality_string_spec (fun _ _ _ _ => []) (fun _ _ _ _ => [])
    posBothNone cW [] [] 0).2
    (Or.inl (by simp [exactlyOnePoolId, posBothNone]))

/-! ## C10: strip_old_entries keeps a suffix -/

/-- C10: strip_old_entries returns exactly the suffix beginning at the first
pair whose timestamp is at or past the cutoff - it drops the longest prefix
of older entries, the whole list surviving when the first pair qualifies and
nothing when none does - and consequently an old pair sitting behind a fresh
one is retained, so the 24-hour window property relies on the list being
sorted by timestamp. -/
theorem strip_old_entries_spec {α : Type} (pairs : List (Nat × α)) (before : Int) :
    strip_old_entries pairs before
        = pairs.dropWhile (fun p => decide ((p.1 : Int) < before)) ∧
    (∀ (p q : Nat × α) (rest : List (Nat × α)), before ≤ (p.1 : Int) →
      q ∈ strip_old_entries (p :: q :: rest) before) := by
  constructor
  · induction pairs with
    | nil => rfl
    | cons hd tl ih =>
      rcases hd with ⟨t, v⟩
      rw [strip_old_entries, List.dropWhile_cons]
      by_cases ht : before ≤ (t : Int)
      · rw [if_pos ht]
        simp only [decide_eq_true_eq]
        rw [if_neg (by omega)]
      · rw [if_neg ht]
        simp only [decide_eq_true_eq]
        rw [if_pos (by omega), ih]
  · intro p q rest hp
    rcases p with ⟨t, v⟩
    rw [strip_old_entries, if_pos hp]
    simp

/-- Witness: a stale pair behind a qualifying one is retained. -/
theorem strip_old_entries_spec_witness :
    (100 : Int) ≤ ((100 : Nat) : Int) ∧
      ((0, 2) : Nat × Nat) ∈ strip_old_entries [((100 : Nat), 1), ((0 : Nat), 2)] (100 : Int) :=
  ⟨by decide, (strip_old_entries_spec ([] : List (Nat × Nat)) 100).2 (100, 1) (0, 2) []
    (by decide)⟩

/-! ## C4: the 24-hour counter maintenance -/

theorem strip_old_entries_all_ge {α : Type} (l : List (Nat × α)) (z : Nat × α) (before : Int)
    (hsort : List.Pairwise (fun p q => p.1 ≤ q.1) l) (hz : before ≤ (z.1 : Int)) :
    ∀ e ∈ strip_old_entries (l ++ [z]) before, before ≤ (e.1 : Int) := by
  induction l with
  | nil =>
    intro e he
    rcases z with ⟨t, v⟩
    rw [List.nil_append, strip_old_entries, if_pos hz] at he
    simp only [List.mem_singleton] at he
    subst he
    exact hz
  | cons hd tl ih =>
    intro e he
    rcases hd with ⟨t, v⟩
    rw [List.cons_append, strip_old_entries] at he
    by_cases ht : before ≤ (t : Int)
    · rw [if_pos ht] at he
      rcases List.mem_cons.mp he with rfl | he2
      · exact ht
      · rcases List.mem_append.mp he2 with h3 | h3
        · have hle := (List.pairwise_cons.mp hsort).1 e h3
          omega
        · simp only [List.mem_singleton] at h3
          subst h3
          exact hz
    · rw [if_neg ht] at he
      exact ih (List.pairwise_cons.mp hsort).2 e he

/-- C4 as stated fails on an unsorted 24h list: after an append at time 86500
(cutoff 100) the stale pair (0, 2) sitting behind the in-window pair (100, 1)
survives the ageing pass. -/
theorem increment_pool_stats_counterexample :
    ¬ (∀ e ∈ (increment_pool_stats (⟨0, [(100, 1), (0, 2)], 7⟩ : PoolCounterState Nat)
        86500 1 (some 3)).list24h, ((86500 : Int) - 86400) ≤ (e.1 : Int)) := by
  decide

/-- C4 (amended): increment_pool_stats bumps the running total by the given
count and appends the (timestamp, value) pair - the current difficulty when
no value is supplied - before ageing out the leading run of old entries; and
provided the 24h list was sorted by timestamp, as repeated updates under a
nondecreasing clock produce, every surviving entry then lies within the
24-hour window. -/
theorem increment_pool_stats_spec {α : Type} (st : PoolCounterState α) (current_time : Nat)
    (count : Int) (value : Option α)
    (hsort : List.Pairwise (fun p q => p.1 ≤ q.1) st.list24h)
    (htime : current_time < 4294967296) :
    (increment_pool_stats st current_time count value).since_start = st.since_start + count ∧
    (increment_pool_stats st current_time count value).list24h =
      strip_old_entries (st.list24h ++ [(current_time, value.getD st.current_difficulty)])
        ((current_time : Int) - 86400) ∧
    ∀ e ∈ (increment_pool_stats st current_time count value).list24h,
      (current_time : Int) - 86400 ≤ (e.1 : Int) := by
  refine ⟨rfl, ?_, ?_⟩
  · simp [increment_pool_stats, Nat.mod_eq_of_lt htime]
  · intro e he
    simp only [increment_pool_stats, Nat.mod_eq_of_lt htime] at he
    exact strip_old_entries_all_ge st.list24h _ _ hsort (by omega) e he

/-- Witness: on a sorted list every entry surviving the update is within the
window. -/
theorem increment_pool_stats_spec_witness :
    List.Pairwise (fun p q : Nat × Nat => p.1 ≤ q.1) [(10, 5), (20, 6)] ∧
    (86500 : Nat) < 4294967296 ∧
    ∀ e ∈ (increment_pool_stats (⟨3, [(10, 5), (20, 6)], 9⟩ : PoolCounterState Nat)
        86500 1 (some 3)).list24h, ((86500 : Int) - 86400) ≤ (e.1 : Int) :=
  ⟨by decide, by decide,
    (increment_pool_stats_spec (⟨3, [(10, 5), (20, 6)], 9⟩ : PoolCounterState Nat)
      86500 1 (some 3) (by decide) (by decide)).2.2⟩

/-! ## C3: missing and skipped signage points -/

/-- C3: between consecutive signage points, a same-challenge pair reports
new index minus previous index minus one missing, and only when that is
positive; a changed challenge reports the floor of the arrival gap over the
expected interval exactly when the gap reaches 1.6 expected intervals, and
nothing below that threshold; and prev_signage_point always becomes the new
(timestamp, signage point) pair, also on the very first signage point. -/
theorem check_missing_signage_points_spec (c : ConsensusConstants)
    (prev_time timestamp : Nat) (prev_sp nsp : NewSignagePoint)
    (hsst : 0 < c.SUB_SLOT_TIME_TARGET) (hnum : 0 < c.NUM_SPS_SUB_SLOT) :
    check_missing_signage_points c none timestamp nsp = (some (timestamp, nsp), none) ∧
    (check_missing_signage_points c (some (prev_time, prev_sp)) timestamp nsp).1
        = some (timestamp, nsp) ∧
    (prev_sp.challenge_hash = nsp.challenge_hash →
      (check_missing_signage_points c (some (prev_time, prev_sp)) timestamp nsp).2 =
        if 0 < (nsp.signage_point_index : Int) - prev_sp.signage_point_index - 1 then
          some (timestamp,
            ((nsp.signage_point_index : Int) - prev_sp.signage_point_index - 1).toNat)
        else none) ∧
    (prev_sp.challenge_hash ≠ nsp.challenge_hash →
      ((((c.SUB_SLOT_TIME_TARGET : ℚ) / c.NUM_SPS_SUB_SLOT) * (8 / 5) ≤
          (((timestamp : Int) - prev_time : Int) : ℚ) →
        (check_missing_signage_points c (some (prev_time, prev_sp)) timestamp nsp).2 =
          some (timestamp,
            (⌊(((timestamp : Int) - prev_time : Int) : ℚ) /
              ((c.SUB_SLOT_TIME_TARGET : ℚ) / c.NUM_SPS_SUB_SLOT)⌋).toNat)) ∧
       ((((timestamp : Int) - prev_time : Int) : ℚ) <
          ((c.SUB_SLOT_TIME_TARGET : ℚ) / c.NUM_SPS_SUB_SLOT) * (8 / 5) →
        (check_missing_signage_points c (some (prev_time, prev_sp)) timestamp nsp).2
          = none))) := by
  refine ⟨rfl, ?_, ?_, ?_⟩
  · simp only [check_missing_signage_points]
    split_ifs <;> rfl
  · intro hch
    simp only [check_missing_signage_points, if_pos hch]
    split_ifs <;> rfl
  · intro hch
    have hexp : (0 : ℚ) < (c.SUB_SLOT_TIME_TARGET : ℚ) / c.NUM_SPS_SUB_SLOT :=
      div_pos (by exact_mod_cast hsst) (by exact_mod_cast hnum)
    constructor
    · intro hge
      have h16 : (0 : ℚ) < ((c.SUB_SLOT_TIME_TARGET : ℚ) / c.NUM_SPS_SUB_SLOT) * (8 / 5) :=
        mul_pos hexp (by norm_num)
      have hdtpos : (0 : ℚ) < (((timestamp : Int) - prev_time : Int) : ℚ) :=
        lt_of_lt_of_le h16 hge
      have hact : ¬ ((timestamp : Int) - prev_time ≤ 0) := by
        intro hle
        have hle2 : (((timestamp : Int) - prev_time : Int) : ℚ) ≤ 0 := by exact_mod_cast hle
        linarith
      have hnotlt : ¬ ((((timestamp : Int) - prev_time : Int) : ℚ) <
          ((c.SUB_SLOT_TIME_TARGET : ℚ) / c.NUM_SPS_SUB_SLOT) * (8 / 5)) := not_lt.mpr hge
      simp only [check_missing_signage_points, if_neg hch, if_neg hact, if_neg hnotlt]
    · intro hlt
      by_cases hact : (timestamp : Int) - prev_time ≤ 0
      · simp only [check_missing_signage_points, if_neg hch, if_pos hact]
      · simp only [check_missing_signage_points, if_neg hch, if_neg hact, if_pos hlt]

/-- Witness: previous index 3 and new index 7 on the same challenge report
three missing signage points. -/
theorem check_missing_signage_points_spec_witness :
    0 < cW.SUB_SLOT_TIME_TARGET ∧ 0 < cW.NUM_SPS_SUB_SLOT ∧
      (check_missing_signage_points cW (some (0, ⟨[1], 3⟩)) 5 ⟨[1], 7⟩).2 = some (5, 3) := by
  refine ⟨by decide, by decide, ?_⟩
  have h := (check_missing_signage_points_spec cW 0 5 ⟨[1], 3⟩ ⟨[1], 7⟩
    (by decide) (by decide)).2.2.1 rfl
  rw [h]
  decide

/-! ## C5: the negotiated difficulty lifecycle -/

theorem pool_state_step_no_success (st : PoolNegotiatedState) (e : PoolEvent)
    (hs : e.isSuccess = false) : pool_state_step st e = st := by
  cases e with
  | poolInfo r =>
    cases r with
    | none => rfl
    | some body =>
      cases hb : body.has_error_code
      · rw [PoolEvent.isSuccess, hb] at hs
        simp at hs
      · simp [pool_state_step, hb]
  | getFarmer r =>
    cases r with
    | none => rfl
    | some resp =>
      cases hb : resp.has_error_code
      · rw [PoolEvent.isSuccess, hb] at hs
        simp at hs
      · simp [pool_state_step, hb]

theorem foldl_pool_state_no_success (events : List PoolEvent) (st : PoolNegotiatedState)
    (h : ∀ e ∈ events, e.isSuccess = false) : events.foldl pool_state_step st = st := by
  induction events generalizing st with
  | nil => rfl
  | cons e t ih =>
    rw [List.foldl_cons, pool_state_step_no_success st e (h e (by simp))]
    exact ih st fun x hx => h x (by simp [hx])

/-- C5: current_difficulty stays null until the first successful GET
/pool_info or GET /farmer response and never reverts to null once set; a
successful GET /pool_info always copies authentication_token_timeout but
seeds current_difficulty from minimum_difficulty only while it is null; a
successful GET /farmer always overwrites current_difficulty and
current_points from the response. -/
theorem pool_state_difficulty_lifecycle (events : List PoolEvent) :
    ((∀ e ∈ events, e.isSuccess = false) →
      (events.foldl pool_state_step initial_pool_state).current_difficulty = none) ∧
    (∀ (st : PoolNegotiatedState) (e : PoolEvent), st.current_difficulty ≠ none →
      (pool_state_step st e).current_difficulty ≠ none) ∧
    (∀ (st : PoolNegotiatedState) (body : PoolInfoResponse), body.has_error_code = false →
      (pool_state_step st (.poolInfo (some body))).authentication_token_timeout
          = some body.authentication_token_timeout ∧
      (pool_state_step st (.poolInfo (some body))).current_difficulty
          = (if st.current_difficulty = none then some body.minimum_difficulty
             else st.current_difficulty)) ∧
    (∀ (st : PoolNegotiatedState) (r : FarmerResponse), r.has_error_code = false →
      (pool_state_step st (.getFarmer (some r))).current_difficulty = some r.current_difficulty ∧
      (pool_state_step st (.getFarmer (some r))).current_points = r.current_points) := by
  refine ⟨?_, ?_, ?_, ?_⟩
  · intro h
    rw [foldl_pool_state_no_success events initial_pool_state h]
    rfl
  · intro st e hne
    cases e with
    | poolInfo r =>
      cases r with
      | none => exact hne
      | some body =>
        by_cases hb : body.has_error_code = true
        · simpa [pool_state_step, hb] using hne
        · rcases hcd : st.current_difficulty with _ | d
          · exact absurd hcd hne
          · simp [pool_state_step, hb, hcd]
    | getFarmer r =>
      cases r with
      | none => exact hne
      | some resp =>
        by_cases hb : resp.has_error_code = true
        · simpa [pool_state_step, hb] using hne
        · simp [pool_state_step, hb]
  · intro st body hb
    constructor <;> simp [pool_state_step, hb]
  · intro st r hb
    constructor <;> simp [pool_state_step, hb]

/-- Witness: a successful pool_info response on a fresh pool seeds the
difficulty and stores the token timeout. -/
theorem pool_state_difficulty_lifecycle_witness :
    (false : Bool) = false ∧
      ((pool_state_step initial_pool_state
          (.poolInfo (some ⟨false, 11, 22⟩))).authentication_token_timeout = some 11 ∧
        (pool_state_step initial_pool_state
          (.poolInfo (some ⟨false, 11, 22⟩))).current_difficulty =
            (if initial_pool_state.current_difficulty = none then some 22
             else initial_pool_state.current_difficulty)) :=
  ⟨rfl, (pool_state_difficulty_lifecycle []).2.2.1 initial_pool_state ⟨false, 11, 22⟩ rfl⟩

/-! ## C6: redirect-driven pool URL migration -/

/-- C6 as stated fails on the persisted URL: on an all-permanent redirect to
a URL with an interior "/pool_info" segment the source's str.replace deletes
every occurrence, not only the trailing one. -/
theorem compute_new_pool_url_counterexample :
    compute_new_pool_url "https://a".toList "https://b/pool_info/x/pool_info".toList [301]
        = some "https://b/x".toList ∧
    "https://b/x".toList ≠ "https://b/pool_info/x".toList := by
  constructor
  · decide
  · decide

/-- C6 (amended): a new canonical pool URL is produced exactly when the final
response URL differs from the requested one, the redirect history is
nonempty, and every hop is a 301 or a 308 - so any 302 in the chain blocks
persistence - and the produced URL is the final URL with every occurrence of
"/pool_info" deleted. -/
theorem compute_new_pool_url_spec (pool_url response_url : List Char) (history : List Nat) :
    (∀ u, compute_new_pool_url pool_url response_url history = some u ↔
      ((response_url ≠ pool_url ++ pool_info_tail ∧ history ≠ [] ∧
        ∀ s ∈ history, s = 301 ∨ s = 308) ∧
       u = replaceAll pool_info_tail [] response_url)) ∧
    (302 ∈ history → compute_new_pool_url pool_url response_url history = none) := by
  have hall : ((history.all fun s => s == 301 || s == 308) = true) ↔
      ∀ s ∈ history, s = 301 ∨ s = 308 := by
    rw [List.all_eq_true]
    constructor
    · intro h s hs
      have := h s hs
      simpa using this
    · intro h s hs
      simpa using h s hs
  constructor
  · intro u
    simp only [compute_new_pool_url]
    split_ifs with hc
    · obtain ⟨h1, h2, h3⟩ := hc
      simp only [Option.some_inj]
      constructor
      · intro hu
        exact ⟨⟨h1, by intro hnil; rw [hnil] at h2; exact absurd h2 (by simp), hall.mp h3⟩,
          hu.symm⟩
      · intro ⟨_, hu⟩
        exact hu.symm
    · constructor
      · intro hu
        exact absurd hu (by simp)
      · intro ⟨⟨h1, h2, h3⟩, _⟩
        exact absurd ⟨h1, List.length_pos.mpr h2, hall.mpr h3⟩ hc
  · intro h302
    simp only [compute_new_pool_url]
    split_ifs with hc
    · obtain ⟨_, _, h3⟩ := hc
      have := hall.mp h3 302 h302
      omega
    · rfl

/-- Witness: a history mixing a 301 and a 302 produces no new URL. -/
theorem compute_new_pool_url_spec_witness :
    (302 : Nat) ∈ [301, 302] ∧
      compute_new_pool_url "https://a".toList "https://b/pool_info".toList [301, 302] = none :=
  ⟨by decide, (compute_new_pool_url_spec "https://a".toList "https://b/pool_info".toList
    [301, 302]).2 (by decide)⟩

/-! ## C7: the mainnet HTTPS guard -/

/-- C7 as stated fails on the error counter: the mainnet guard skips the pool
without attempting any request, but records no pool_errors increment. -/
theorem update_pool_state_iter_counterexample :
    (update_pool_state_iter "mainnet".toList "http://pool.example".toList
        initial_pool_state []).attempted_requests = false ∧
    (update_pool_state_iter "mainnet".toList "http://pool.example".toList
        initial_pool_state []).pool_error_increments = 0 := by
  constructor
  · decide
  · decide

/-- C7 (amended): on mainnet, a pool URL that does not start with https://
makes the iteration skip the pool: no pool request is attempted, the
negotiated state is untouched, and no pool_errors increment is recorded -
only an error log is emitted. -/
theorem update_pool_state_iter_mainnet_guard (pool_url : List Char)
    (st : PoolNegotiatedState) (events : List PoolEvent)
    (hurl : startsWithL pool_url "https://".toList = false) :
    update_pool_state_iter "mainnet".toList pool_url st events = ⟨st, false, 0⟩ := by
  unfold update_pool_state_iter
  by_cases hempty : pool_url = []
  · rw [if_pos hempty]
  · have hcond : "mainnet".toList = "mainnet".toList ∧
        ¬ startsWithL pool_url "https://".toList = true := ⟨rfl, by rw [hurl]; simp⟩
    rw [if_neg hempty, if_pos hcond]

/-- Witness: the guard instantiated at a plain-HTTP URL. -/
theorem update_pool_state_iter_mainnet_guard_witness :
    startsWithL "http://pool.example".toList "https://".toList = false ∧
    update_pool_state_iter "mainnet".toList "http://pool.example".toList initial_pool_state []
      = ⟨initial_pool_state, false, 0⟩ :=
  ⟨by decide, update_pool_state_iter_mainnet_guard "http://pool.example".toList
    initial_pool_state [] (by decide)⟩
